import Mathlib

/-!
Verification of the UIDAI biometric-authentication dashboard (`app.py`).

The development shallowly embeds the data pipeline of `main`:
loading (column-presence guards), the three sidebar filters
(date range, state, district), the group-by aggregations, the
metric/percentage computations, and the zone classifier of the
map tab.  Machine floats of the original are modelled by exact
rationals; a pandas missing value (NaN/NaT) is modelled by
`Option.none`.
-/

namespace Uidai

/-! ## Records and frames

A `Record` is one row of the working DataFrame after the age columns
are guaranteed to exist (`bio_age_5_17`, `bio_age_17_`): `state`,
`district` and `date` stay nullable, the two counts are numbers.
A `Frame` carries the rows together with column-presence flags,
mirroring the `'c' in df.columns` tests of `main`. -/

structure Record where
  date : Option ℤ
  state : Option String
  district : Option String
  young : ℚ
  adult : ℚ
  deriving DecidableEq, Repr

structure Frame where
  hasDate : Bool
  hasState : Bool
  hasDistrict : Bool
  rows : List Record
  deriving DecidableEq, Repr

/-! ## Filter engine (sidebar of `main`, lines 170-197) -/

/-- One row's date test of `df[(df.date >= a) & (df.date <= b)]`:
a null date (NaT) compares `False` on both sides in pandas. -/
def dateMatch (a b : ℤ) (r : Record) : Bool :=
  match r.date with
  | some d => decide (a ≤ d) && decide (d ≤ b)
  | none => false

/-- The date-filter stage: runs only when a `date` column exists and is
not entirely null, and applies the inclusive range only when the
date-picker selection has exactly two entries. -/
def dateStage (f : Frame) (sel : List ℤ) : Frame :=
  if f.hasDate && !(f.rows.all fun r => r.date.isNone) then
    match sel with
    | [a, b] => { f with rows := f.rows.filter (dateMatch a b) }
    | _ => f
  else f

/-- The state-filter stage: equality filter on `state` unless the
sentinel "All" is selected (lines 183-189). -/
def stateStage (f : Frame) (sel : String) : Frame :=
  if f.hasState then
    if sel ≠ "All" then
      { f with rows := f.rows.filter fun r => decide (r.state = some sel) }
    else f
  else f

/-- The district-filter stage (lines 191-197).  It is reached with the
Python variable `selected_state` in scope, hence the extra argument. -/
def districtStage (f : Frame) (stateSel districtSel : String) : Frame :=
  if f.hasDistrict && stateSel ≠ "All" then
    if districtSel ≠ "All" then
      { f with rows := f.rows.filter fun r => decide (r.district = some districtSel) }
    else f
  else f

/-- The whole filter pipeline applied by `main` to the loaded frame. -/
def pipeline (f : Frame) (dateSel : List ℤ) (stateSel districtSel : String) : Frame :=
  districtStage (stateStage (dateStage f dateSel) stateSel) stateSel districtSel

/-- The district choices offered by the sidebar selectbox (line 193):
`['All'] + sorted(df['district'].dropna().unique().tolist())` computed
on the state-filtered frame. -/
def districtChoices (f : Frame) (stateSel : String) : List String :=
  "All" ::
    ((((stateStage f stateSel).rows.filterMap fun r => r.district).dedup).insertionSort (· ≤ ·))

/-! ## Aggregator (`groupby('state').agg(...)`, lines 258-263 etc.) -/

/-- Group keys of `df.groupby('state')`: null keys are dropped and the
distinct keys are sorted (pandas defaults `dropna=True`, `sort=True`). -/
def stateKeys (rows : List Record) : List String :=
  ((rows.filterMap fun r => r.state).dedup).insertionSort (· ≤ ·)

/-- Sum of `bio_age_5_17` over the rows of one state group. -/
def regionYoung (rows : List Record) (s : String) : ℚ :=
  ((rows.filter fun r => decide (r.state = some s)).map fun r => r.young).sum

/-- Sum of `bio_age_17_` over the rows of one state group. -/
def regionAdult (rows : List Record) (s : String) : ℚ :=
  ((rows.filter fun r => decide (r.state = some s)).map fun r => r.adult).sum

/-- The `total` column of the per-state summary:
`state_data['total'] = state_data[age_5_17_col] + state_data[age_17_plus_col]`. -/
def regionTotal (rows : List Record) (s : String) : ℚ :=
  regionYoung rows s + regionAdult rows s

/-- The `total` column of `map_data` in the map tab, one entry per
distinct state. -/
def mapDataTotals (rows : List Record) : List ℚ :=
  (stateKeys rows).map fun s => regionTotal rows s

/-! ## Zone classifier (map tab, lines 513-541) -/

/-- Linear interpolation into a sorted list at fractional position `h`,
as pandas `quantile(..., interpolation='linear')` does: with `j = ⌊h⌋`
and `g = h - j`, the value is `s[j] + g * (s[j+1] - s[j])` (the upper
index clamped to the last element, which is only reached with `g = 0`). -/
def interpAt (s : List ℚ) (h : ℚ) : ℚ :=
  s.getD (⌊h⌋).toNat 0 +
    (h - ((⌊h⌋).toNat : ℚ)) *
      (s.getD (min ((⌊h⌋).toNat + 1) (s.length - 1)) 0 - s.getD (⌊h⌋).toNat 0)

/-- pandas `Series.quantile(q)` with the default linear interpolation:
sort the values and interpolate at position `q * (n - 1)`. -/
def quantileQ (xs : List ℚ) (q : ℚ) : ℚ :=
  interpAt (xs.insertionSort (· ≤ ·)) (q * ((xs.length : ℚ) - 1))

inductive Zone where
  | low
  | medium
  | high
  deriving DecidableEq, Repr

/-- The classifier `get_zone_color_val` (lines 533-539): Low iff at
most the low threshold, else Medium iff at most the high threshold,
else High. -/
def get_zone_color_val (low_threshold high_threshold val : ℚ) : Zone :=
  if val ≤ low_threshold then Zone.low
  else if val ≤ high_threshold then Zone.medium
  else Zone.high

/-- The zone assigned to a total `t` by the map tab: thresholds are the
0.33 and 0.66 quantiles of the visible `map_data['total']` column
(lines 515-516), applied through `get_zone_color_val` (line 541). -/
def zoneOf (totals : List ℚ) (t : ℚ) : Zone :=
  get_zone_color_val (quantileQ totals (33/100)) (quantileQ totals (66/100)) t

/-! ## Metrics and percentage computations -/

/-- A displayed percentage: either the guarded "0%" fallback string or a
computed value. -/
inductive PctDisplay where
  | fallback
  | pct (v : ℚ)
  deriving DecidableEq, Repr

/-- The delta of the two age metrics (lines 237 and 244):
`f"{(x/t*100):.1f}%" if t > 0 else "0%"`. -/
def metricDelta (x t : ℚ) : PctDisplay :=
  if t > 0 then PctDisplay.pct (x / t * 100) else PctDisplay.fallback

/-- pandas elementwise division: a zero denominator yields NaN or ±inf,
i.e. no finite number; modelled by `none`. -/
def pandasDiv (a b : ℚ) : Option ℚ :=
  if b = 0 then none else some (a / b)

/-- pandas `Series.round(2)`: round half to even at two decimals. -/
def pandasRound2 (x : ℚ) : ℚ :=
  let y := x * 100
  let z : ℤ := if y - (⌊y⌋ : ℚ) = 1/2 then (if 2 ∣ ⌊y⌋ then ⌊y⌋ else ⌊y⌋ + 1) else round y
  (z : ℚ) / 100

/-- The `ratio_5_17` entry of the `state_ratio` table for state `s`
(line 452): `(state_ratio[age_5_17_col] / state_ratio['total'] * 100).round(2)`,
with no guard on the denominator. -/
def ratioRow_5_17 (rows : List Record) (s : String) : Option ℚ :=
  (pandasDiv (regionYoung rows s) (regionTotal rows s)).map fun x => pandasRound2 (x * 100)

/-- The four key metrics of `main` (lines 199-245) over the filtered rows. -/
structure Metrics where
  totalRecords : ℕ
  totalAuth : ℚ
  delta_5_17 : PctDisplay
  delta_17_plus : PctDisplay
  deriving DecidableEq, Repr

def computeMetrics (rows : List Record) : Metrics :=
  let t517 := (rows.map fun r => r.young).sum
  let t17p := (rows.map fun r => r.adult).sum
  let ta := t517 + t17p
  { totalRecords := rows.length
    totalAuth := ta
    delta_5_17 := metricDelta t517 ta
    delta_17_plus := metricDelta t17p ta }

/-- Outcome of one run of `main` up to the metric row: the early
`return` on an empty loaded frame (line 161-163), the `NameError` on
`selected_state` when a district column exists but no state column
does (line 192), or the rendered metrics. -/
inductive RunResult where
  | halted
  | crashed
  | rendered (m : Metrics)
  deriving DecidableEq, Repr

def runMain (f : Frame) (dateSel : List ℤ) (stateSel districtSel : String) : RunResult :=
  if f.rows.isEmpty then RunResult.halted
  else if !f.hasState && f.hasDistrict then RunResult.crashed
  else RunResult.rendered (computeMetrics (pipeline f dateSel stateSel districtSel).rows)

/-! ## Loader view of the age columns (lines 202-213)

For the loading claims the cells of the age columns must keep their
possibly-missing state: a `RawRow` holds the parsed cell values, with
`none` for an empty cell (pandas NaN), and a `RawFile` records whether
each age column is present in the header. -/

structure RawRow where
  state : Option String
  district : Option String
  date : Option ℤ
  young : Option ℚ
  adult : Option ℚ
  deriving DecidableEq, Repr

structure RawFile where
  hasYoungCol : Bool
  hasAdultCol : Bool
  rows : List RawRow
  deriving DecidableEq, Repr

/-- The column guard of `main` (lines 206-209): a column absent from
the header is created as an all-zero column (`df[col] = 0`); a column
that is present is left untouched, empty cells included. -/
def ensureAgeColumns (f : RawFile) : RawFile :=
  let f1 :=
    if f.hasYoungCol then f
    else { f with hasYoungCol := true
                  rows := f.rows.map fun r => { r with young := some 0 } }
  if f1.hasAdultCol then f1
  else { f1 with hasAdultCol := true
                 rows := f1.rows.map fun r => { r with adult := some 0 } }

/-- pandas `Series.sum()` over a nullable column: missing values are
skipped (`skipna=True`), the empty sum is `0`. -/
def sumOpt (l : List (Option ℚ)) : ℚ :=
  (l.filterMap id).sum

end Uidai

namespace Uidai

theorem sum_map_add_split (l : List Record) :
    (l.map fun r => r.young + r.adult).sum
      = (l.map fun r => r.young).sum + (l.map fun r => r.adult).sum := by
  induction l with
  | nil => simp
  | cons a l ih => simp [ih]; ring

/-- Claim C4: the per-region aggregate total (sum of `countYoung` plus
sum of `countAdult` over the region's records) equals the sum of the
per-record values `countYoung + countAdult` over those records. -/
theorem claim_C4_region_total_eq_sum_of_record_totals (rows : List Record) (s : String) :
    regionTotal rows s
      = ((rows.filter fun r => decide (r.state = some s)).map fun r => r.young + r.adult).sum := by
  rw [regionTotal, regionYoung, regionAdult, sum_map_add_split]

/-- Claim C5: the region filter with the sentinel selection "All"
returns its input frame unchanged: same rows, same order, same values. -/
theorem claim_C5_state_filter_all_is_identity (f : Frame) :
    stateStage f "All" = f := by
  simp [stateStage]

/-- Claim C8: on a frame whose date column is entirely null, the
date-filter stage passes every row through unchanged, for every
date-picker selection. -/
theorem claim_C8_all_null_dates_skip_date_filter (f : Frame) (sel : List ℤ)
    (h : ∀ r ∈ f.rows, r.date = none) :
    dateStage f sel = f := by
  have hall : (f.rows.all fun r => r.date.isNone) = true := by
    rw [List.all_eq_true]
    intro r hr
    rw [h r hr]
    rfl
  simp [dateStage, hall]

def c8Frame : Frame :=
  { hasDate := true, hasState := true, hasDistrict := false,
    rows := [{ date := none, state := some "X", district := none, young := 1, adult := 2 }] }

theorem claim_C8_witness : dateStage c8Frame [3, 7] = c8Frame := by
  apply claim_C8_all_null_dates_skip_date_filter
  intro r hr
  simp [c8Frame] at hr
  rw [hr]

/-- Claim C9: with a usable date column, the inclusive date-range
filter is applied exactly when the picker selection has two entries:
any other selection length leaves the frame unchanged, and a two-date
selection keeps exactly the rows whose (non-null) date lies inclusively
between the two picks. -/
theorem claim_C9_date_filter_only_on_two_dates (f : Frame) (sel : List ℤ)
    (hd : f.hasDate = true) (hu : (f.rows.all fun r => r.date.isNone) ≠ true) :
    (sel.length ≠ 2 → dateStage f sel = f) ∧
    (∀ a b, sel = [a, b] → (dateStage f sel).rows = f.rows.filter (dateMatch a b)) ∧
    (∀ a b r, dateMatch a b r = true ↔ ∃ d, r.date = some d ∧ a ≤ d ∧ d ≤ b) := by
  refine ⟨?_, ?_, ?_⟩
  · intro hlen
    match sel, hlen with
    | [], _ => simp [dateStage, hd, hu]
    | [x], _ => simp [dateStage, hd, hu]
    | [x, y], h => exact absurd rfl h
    | x :: y :: z :: t, _ => simp [dateStage, hd, hu]
  · rintro a b rfl
    simp [dateStage, hd, hu]
  · intro a b r
    rw [dateMatch]
    match r.date with
    | some d => simp
    | none => simp

def c9Frame : Frame :=
  { hasDate := true, hasState := false, hasDistrict := false,
    rows := [{ date := some 5, state := none, district := none, young := 0, adult := 0 }] }

theorem claim_C9_witness :
    ((([] : List ℤ).length ≠ 2 → dateStage c9Frame [] = c9Frame) ∧
     (∀ a b, ([] : List ℤ) = [a, b] →
        (dateStage c9Frame []).rows = c9Frame.rows.filter (dateMatch a b)) ∧
     (∀ a b r, dateMatch a b r = true ↔ ∃ d, r.date = some d ∧ a ≤ d ∧ d ≤ b)) :=
  claim_C9_date_filter_only_on_two_dates c9Frame [] rfl (by simp [c9Frame])

end Uidai

namespace Uidai

/-- Claim C6: for a selected region `R` (not the sentinel), the
non-sentinel district choices offered by the sidebar are exactly the
distinct district values among the records whose state equals `R`. -/
theorem claim_C6_district_choices_exact (f : Frame) (R : String) (hs : f.hasState = true)
    (hR : R ≠ "All") (d : String) (hd : d ≠ "All") :
    d ∈ districtChoices f R ↔ ∃ r ∈ f.rows, r.state = some R ∧ r.district = some d := by
  have hrows : (stateStage f R).rows = f.rows.filter fun r => decide (r.state = some R) := by
    simp [stateStage, hs, hR]
  have hperm :
      List.Perm
        ((((stateStage f R).rows.filterMap fun r => r.district).dedup).insertionSort (· ≤ ·))
        (((stateStage f R).rows.filterMap fun r => r.district).dedup) :=
    List.perm_insertionSort _ _
  rw [districtChoices, List.mem_cons, hperm.mem_iff, List.mem_dedup, List.mem_filterMap]
  simp only [hrows, List.mem_filter]
  constructor
  · rintro (rfl | ⟨r, ⟨hr, hstate⟩, hdist⟩)
    · exact absurd rfl hd
    · exact ⟨r, hr, by simpa using hstate, hdist⟩
  · rintro ⟨r, hr, hstate, hdist⟩
    exact Or.inr ⟨r, ⟨hr, by simpa using hstate⟩, hdist⟩

def c6Frame : Frame :=
  { hasDate := false, hasState := true, hasDistrict := true,
    rows := [{ date := none, state := some "K", district := some "D1", young := 3, adult := 4 },
             { date := none, state := some "M", district := some "D2", young := 1, adult := 1 }] }

theorem claim_C6_witness :
    "D1" ∈ districtChoices c6Frame "K" ↔
      ∃ r ∈ c6Frame.rows, r.state = some "K" ∧ r.district = some "D1" :=
  claim_C6_district_choices_exact c6Frame "K" rfl (by decide) "D1" (by decide)

/-- Claim C10: the terminal "no data" halt is decided on the loaded
frame alone; a filter selection that empties a non-empty loaded frame
still renders, with 0 records, 0 authentications and both percentage
deltas at the "0%" fallback. -/
theorem claim_C10_no_halt_on_filtered_empty (f : Frame) (dateSel : List ℤ)
    (stateSel districtSel : String) (hne : f.rows ≠ []) (hs : f.hasState = true)
    (hempty : (pipeline f dateSel stateSel districtSel).rows = []) :
    runMain f dateSel stateSel districtSel
      = RunResult.rendered { totalRecords := 0, totalAuth := 0,
                             delta_5_17 := PctDisplay.fallback,
                             delta_17_plus := PctDisplay.fallback } := by
  have h1 : f.rows.isEmpty = false := by
    simpa using hne
  rw [runMain, h1]
  simp only [hs, Bool.not_true, Bool.false_and, if_false, Bool.false_eq_true]
  rw [hempty]
  simp [computeMetrics, metricDelta]

def c10Frame : Frame :=
  { hasDate := false, hasState := true, hasDistrict := false,
    rows := [{ date := none, state := some "X", district := none, young := 2, adult := 3 }] }

theorem claim_C10_witness :
    runMain c10Frame [] "Y" "All"
      = RunResult.rendered { totalRecords := 0, totalAuth := 0,
                             delta_5_17 := PctDisplay.fallback,
                             delta_17_plus := PctDisplay.fallback } := by
  apply claim_C10_no_halt_on_filtered_empty
  · simp [c10Frame]
  · rfl
  · simp [pipeline, dateStage, stateStage, districtStage, c10Frame, List.filter]

end Uidai

namespace Uidai

def c3Rows : List Record :=
  [{ date := none, state := some "Z", district := none, young := 0, adult := 0 }]

/-- Claim C3 counterexample: in the age-ratio chart of the third tab,
the `ratio_5_17` percentage of a state whose total is zero is computed
by an unguarded division: the result is a pandas NaN (`none`), not the
"0%" fallback, so not every percentage computation is guarded. -/
theorem claim_C3_counterexample :
    regionTotal c3Rows "Z" = 0 ∧
    ratioRow_5_17 c3Rows "Z" = none ∧
    ∀ v : ℚ, ratioRow_5_17 c3Rows "Z" ≠ some v := by
  have htot : regionTotal c3Rows "Z" = 0 := by
    simp [regionTotal, regionYoung, regionAdult, c3Rows, List.filter_cons]
  have hnone : ratioRow_5_17 c3Rows "Z" = none := by
    rw [ratioRow_5_17, htot, pandasDiv]
    simp
  exact ⟨htot, hnone, fun v h => by rw [hnone] at h; exact Option.noConfusion h⟩

/-- Claim C3 amended: the two top-level metric percentages are guarded,
falling back to "0%" whenever total authentications is zero with no
division evaluated; the per-state `ratio_5_17` column is not guarded,
yielding an undefined (NaN) value for a zero-total state. -/
theorem claim_C3_amended_guards (x : ℚ) (rows : List Record) (s : String)
    (h : regionTotal rows s = 0) :
    metricDelta x 0 = PctDisplay.fallback ∧
    ratioRow_5_17 rows s = none := by
  constructor
  · rw [metricDelta]
    simp
  · rw [ratioRow_5_17, h, pandasDiv]
    simp

theorem claim_C3_witness :
    metricDelta 7 0 = PctDisplay.fallback ∧ ratioRow_5_17 c3Rows "Z" = none :=
  claim_C3_amended_guards 7 c3Rows "Z"
    (by simp [regionTotal, regionYoung, regionAdult, c3Rows, List.filter_cons])

def c7File : RawFile :=
  { hasYoungCol := true, hasAdultCol := true,
    rows := [{ state := some "X", district := none, date := none,
               young := none, adult := some 5 }] }

/-- Claim C7 counterexample: a file whose `bio_age_5_17` column is
present in the header but has no values loads with every cell null
(NaN); the column guard of `main` fires only for an absent column, so
no row gets `countYoung = 0`. -/
theorem claim_C7_counterexample :
    ((ensureAgeColumns c7File).rows.map fun r => r.young) = [none] ∧
    ¬ (∀ r ∈ (ensureAgeColumns c7File).rows, r.young = some 0) := by
  have h : ((ensureAgeColumns c7File).rows.map fun r => r.young) = [none] := by
    simp [ensureAgeColumns, c7File]
  refine ⟨h, fun hall => ?_⟩
  have := hall { state := some "X", district := none, date := none,
                 young := none, adult := some 5 }
    (by simp [ensureAgeColumns, c7File])
  exact Option.noConfusion this

/-- When the `bio_age_5_17` column is present in the header, the
column guard leaves every `countYoung` cell exactly as parsed. -/
theorem young_cells_unchanged_of_present (f : RawFile) (hcol : f.hasYoungCol = true) :
    ((ensureAgeColumns f).rows.map fun r => r.young) = f.rows.map fun r => r.young := by
  rw [ensureAgeColumns]
  simp only [hcol, if_true]
  by_cases hA : f.hasAdultCol
  · simp [hA]
  · simp [hA, List.map_map, Function.comp]

/-- Claim C7 amended: loading a file whose `bio_age_5_17` column is
present but entirely empty succeeds; every row keeps a null (not zero)
`countYoung`, and any aggregate sum over the column is 0 because pandas
skips missing values. -/
theorem claim_C7_amended_empty_young_column (f : RawFile) (hcol : f.hasYoungCol = true)
    (hempty : ∀ r ∈ f.rows, r.young = none) :
    (∀ r ∈ (ensureAgeColumns f).rows, r.young = none) ∧
    sumOpt ((ensureAgeColumns f).rows.map fun r => r.young) = 0 := by
  have hcells := young_cells_unchanged_of_present f hcol
  constructor
  · intro r hr
    have hmem : r.young ∈ (ensureAgeColumns f).rows.map fun r => r.young :=
      List.mem_map_of_mem _ hr
    rw [hcells, List.mem_map] at hmem
    obtain ⟨r0, hr0, h0⟩ := hmem
    rw [← h0]
    exact hempty r0 hr0
  · rw [sumOpt, hcells]
    have hnil : (f.rows.map fun r => r.young).filterMap id = [] := by
      rw [List.filterMap_eq_nil_iff]
      intro o ho
      simp only [List.mem_map] at ho
      obtain ⟨r, hr, rfl⟩ := ho
      simp [hempty r hr]
    rw [hnil, List.sum_nil]

theorem claim_C7_witness :
    (∀ r ∈ (ensureAgeColumns c7File).rows, r.young = none) ∧
    sumOpt ((ensureAgeColumns c7File).rows.map fun r => r.young) = 0 :=
  claim_C7_amended_empty_young_column c7File rfl
    (by intro r hr; simp [c7File] at hr; rw [hr])

/-- The absent-column half of the loader guard, for contrast with the
amended claim C7: a `bio_age_5_17` column missing from the header is
synthesized as all zeros. -/
theorem ensureAgeColumns_absent_young (f : RawFile) (hcol : f.hasYoungCol = false) :
    ∀ r ∈ (ensureAgeColumns f).rows, r.young = some 0 := by
  obtain ⟨hy, ha, rows⟩ := f
  simp only at hcol
  subst hcol
  intro r hr
  cases ha
  · simp only [ensureAgeColumns, Bool.false_eq_true, if_false, List.map_map,
      List.mem_map, Function.comp] at hr
    obtain ⟨r0, _, rfl⟩ := hr
    rfl
  · simp only [ensureAgeColumns, Bool.false_eq_true, if_false, if_true,
      List.mem_map] at hr
    obtain ⟨r0, _, rfl⟩ := hr
    rfl

end Uidai

namespace Uidai

theorem sorted_getD_mono {s : List ℚ} (hs : s.Sorted (· ≤ ·)) {i k : ℕ}
    (hik : i ≤ k) (hk : k < s.length) : s.getD i 0 ≤ s.getD k 0 := by
  have hi : i < s.length := lt_of_le_of_lt hik hk
  rw [List.getD_eq_getElem?_getD, List.getD_eq_getElem?_getD,
    List.getElem?_eq_getElem hi, List.getElem?_eq_getElem hk]
  simp only [Option.getD_some]
  rcases eq_or_lt_of_le hik with rfl | hlt
  · exact le_refl _
  · have := hs.rel_get_of_lt (a := ⟨i, hi⟩) (b := ⟨k, hk⟩) (Fin.mk_lt_mk.mpr hlt)
    simpa [List.get_eq_getElem] using this

theorem interpAt_mono {s : List ℚ} (hs : s.Sorted (· ≤ ·)) {h1 h2 : ℚ}
    (h0 : 0 ≤ h1) (h12 : h1 ≤ h2) (hub : h2 ≤ (s.length : ℚ) - 1) :
    interpAt s h1 ≤ interpAt s h2 := by
  have hn : 1 ≤ s.length := by
    rcases Nat.eq_zero_or_pos s.length with h | h
    · rw [h] at hub
      push_cast at hub
      linarith
    · exact h
  have hf1 : (0:ℤ) ≤ ⌊h1⌋ := Int.floor_nonneg.mpr h0
  have hf2 : (0:ℤ) ≤ ⌊h2⌋ := Int.floor_nonneg.mpr (le_trans h0 h12)
  have hc1 : (((⌊h1⌋).toNat : ℕ) : ℚ) = ((⌊h1⌋ : ℤ) : ℚ) := by
    exact_mod_cast congrArg (fun z : ℤ => (z : ℚ)) (Int.toNat_of_nonneg hf1)
  have hc2 : (((⌊h2⌋).toNat : ℕ) : ℚ) = ((⌊h2⌋ : ℤ) : ℚ) := by
    exact_mod_cast congrArg (fun z : ℤ => (z : ℚ)) (Int.toNat_of_nonneg hf2)
  have hg1 : 0 ≤ h1 - (((⌊h1⌋).toNat : ℕ) : ℚ) := by
    rw [hc1]
    linarith [Int.floor_le h1]
  have hg1' : h1 - (((⌊h1⌋).toNat : ℕ) : ℚ) ≤ 1 := by
    rw [hc1]
    have := Int.lt_floor_add_one h1
    push_cast at this
    linarith
  have hg2 : 0 ≤ h2 - (((⌊h2⌋).toNat : ℕ) : ℚ) := by
    rw [hc2]
    linarith [Int.floor_le h2]
  have hj1n : (⌊h1⌋).toNat ≤ s.length - 1 := by
    have hq : ((⌊h1⌋ : ℤ) : ℚ) ≤ ((s.length : ℚ)) - 1 :=
      le_trans (Int.floor_le h1) (le_trans h12 hub)
    have hz : ⌊h1⌋ ≤ (s.length : ℤ) - 1 := by exact_mod_cast hq
    omega
  have hj2n : (⌊h2⌋).toNat ≤ s.length - 1 := by
    have hq : ((⌊h2⌋ : ℤ) : ℚ) ≤ ((s.length : ℚ)) - 1 :=
      le_trans (Int.floor_le h2) hub
    have hz : ⌊h2⌋ ≤ (s.length : ℤ) - 1 := by exact_mod_cast hq
    omega
  have hj12 : (⌊h1⌋).toNat ≤ (⌊h2⌋).toNat :=
    Int.toNat_le_toNat (Int.floor_le_floor h12)
  have hj1lt : (⌊h1⌋).toNat < s.length := by omega
  have hj2lt : (⌊h2⌋).toNat < s.length := by omega
  have hminlt : min ((⌊h1⌋).toNat + 1) (s.length - 1) < s.length := by
    have := min_le_right ((⌊h1⌋).toNat + 1) (s.length - 1)
    omega
  have hmin2lt : min ((⌊h2⌋).toNat + 1) (s.length - 1) < s.length := by
    have := min_le_right ((⌊h2⌋).toNat + 1) (s.length - 1)
    omega
  have hd1 : s.getD ((⌊h1⌋).toNat) 0 ≤ s.getD (min ((⌊h1⌋).toNat + 1) (s.length - 1)) 0 :=
    sorted_getD_mono hs (le_min (Nat.le_succ _) hj1n) hminlt
  have hd2 : s.getD ((⌊h2⌋).toNat) 0 ≤ s.getD (min ((⌊h2⌋).toNat + 1) (s.length - 1)) 0 :=
    sorted_getD_mono hs (le_min (Nat.le_succ _) hj2n) hmin2lt
  rw [interpAt, interpAt]
  rcases eq_or_lt_of_le hj12 with heq | hlt
  · rw [← heq]
    have hgle : h1 - (((⌊h1⌋).toNat : ℕ) : ℚ) ≤ h2 - (((⌊h1⌋).toNat : ℕ) : ℚ) := by
      linarith
    have hmul := mul_le_mul_of_nonneg_right hgle (sub_nonneg.mpr hd1)
    linarith
  · have hupper :
        s.getD ((⌊h1⌋).toNat) 0 +
            (h1 - (((⌊h1⌋).toNat : ℕ) : ℚ)) *
              (s.getD (min ((⌊h1⌋).toNat + 1) (s.length - 1)) 0 - s.getD ((⌊h1⌋).toNat) 0)
          ≤ s.getD (min ((⌊h1⌋).toNat + 1) (s.length - 1)) 0 := by
      have := mul_le_mul_of_nonneg_right hg1' (sub_nonneg.mpr hd1)
      linarith
    have hmid : s.getD (min ((⌊h1⌋).toNat + 1) (s.length - 1)) 0 ≤ s.getD ((⌊h2⌋).toNat) 0 :=
      sorted_getD_mono hs (le_trans (min_le_left _ _) hlt) hj2lt
    have hlower :
        s.getD ((⌊h2⌋).toNat) 0
          ≤ s.getD ((⌊h2⌋).toNat) 0 +
              (h2 - (((⌊h2⌋).toNat : ℕ) : ℚ)) *
                (s.getD (min ((⌊h2⌋).toNat + 1) (s.length - 1)) 0 - s.getD ((⌊h2⌋).toNat) 0) := by
      have := mul_nonneg hg2 (sub_nonneg.mpr hd2)
      linarith
    linarith

theorem quantileQ_mono (xs : List ℚ) {q1 q2 : ℚ} (hq0 : 0 ≤ q1) (hq12 : q1 ≤ q2)
    (hq1 : q2 ≤ 1) : quantileQ xs q1 ≤ quantileQ xs q2 := by
  rcases eq_or_ne xs [] with rfl | hne
  · norm_num [quantileQ, interpAt, List.insertionSort]
  · have hlen : 1 ≤ xs.length := List.length_pos.mpr hne
    have hsort : (xs.insertionSort (· ≤ ·)).Sorted (· ≤ ·) :=
      List.sorted_insertionSort _ _
    have hlen' : (xs.insertionSort (· ≤ ·)).length = xs.length :=
      (List.perm_insertionSort _ _).length_eq
    have hpos : (0:ℚ) ≤ (xs.length : ℚ) - 1 := by
      have : (1:ℚ) ≤ (xs.length : ℚ) := by exact_mod_cast hlen
      linarith
    rw [quantileQ, quantileQ]
    apply interpAt_mono hsort
    · exact mul_nonneg hq0 hpos
    · exact mul_le_mul_of_nonneg_right hq12 hpos
    · rw [hlen']
      calc q2 * ((xs.length : ℚ) - 1) ≤ 1 * ((xs.length : ℚ) - 1) :=
            mul_le_mul_of_nonneg_right hq1 hpos
        _ = (xs.length : ℚ) - 1 := one_mul _

end Uidai

namespace Uidai

/-- Claim C1: over any visible region-summary table, the zone of a
region with total `t` is Low exactly when `t ≤ p33`, Medium exactly
when `p33 < t ≤ p66`, and High exactly when `t > p66`, where `p33` and
`p66` are the 0.33 and 0.66 quantiles of the visible totals; in
particular a total equal to a threshold falls into the lower zone. -/
theorem claim_C1_zone_classification (totals : List ℚ) (t : ℚ) :
    (zoneOf totals t = Zone.low ↔ t ≤ quantileQ totals (33/100)) ∧
    (zoneOf totals t = Zone.medium ↔
      quantileQ totals (33/100) < t ∧ t ≤ quantileQ totals (66/100)) ∧
    (zoneOf totals t = Zone.high ↔ quantileQ totals (66/100) < t) ∧
    zoneOf totals (quantileQ totals (33/100)) = Zone.low ∧
    zoneOf totals (quantileQ totals (66/100)) ≠ Zone.high := by
  have hq : quantileQ totals (33/100) ≤ quantileQ totals (66/100) :=
    quantileQ_mono totals (by norm_num) (by norm_num) (by norm_num)
  have main : ∀ u : ℚ,
      (zoneOf totals u = Zone.low ↔ u ≤ quantileQ totals (33/100)) ∧
      (zoneOf totals u = Zone.medium ↔
        quantileQ totals (33/100) < u ∧ u ≤ quantileQ totals (66/100)) ∧
      (zoneOf totals u = Zone.high ↔ quantileQ totals (66/100) < u) := by
    intro u
    rw [zoneOf, get_zone_color_val]
    split_ifs with h1 h2
    · exact ⟨iff_of_true rfl h1,
        iff_of_false (by simp) (fun hc => absurd h1 (not_le.mpr hc.1)),
        iff_of_false (by simp) (fun hc => absurd h1 (not_le.mpr (lt_of_le_of_lt hq hc)))⟩
    · exact ⟨iff_of_false (by simp) h1,
        iff_of_true rfl ⟨not_le.mp h1, h2⟩,
        iff_of_false (by simp) (fun hc => absurd h2 (not_le.mpr hc))⟩
    · exact ⟨iff_of_false (by simp) h1,
        iff_of_false (by simp) (fun hc => h2 hc.2),
        iff_of_true rfl (not_le.mp h2)⟩
  refine ⟨(main t).1, (main t).2.1, (main t).2.2, ?_, ?_⟩
  · exact ((main _).1).mpr (le_refl _)
  · intro hc
    exact absurd (((main _).2.2).mp hc) (not_lt.mpr (le_refl _))

def c2Rows : List Record :=
  [ { date := none, state := some "A", district := none, young := 100, adult := 0 }
  , { date := none, state := some "B", district := none, young := 50, adult := 0 }
  , { date := none, state := some "C", district := none, young := 10, adult := 0 } ]

theorem c2_totals : mapDataTotals c2Rows = [100, 50, 10] := by
  rw [mapDataTotals, show stateKeys c2Rows = ["A", "B", "C"] from by
    rw [stateKeys, show c2Rows.filterMap (fun r => r.state) = ["A", "B", "C"] from rfl,
      List.dedup_eq_self.mpr (by decide)]
    simp [List.insertionSort, List.orderedInsert]
    decide]
  simp [regionTotal, regionYoung, regionAdult, c2Rows, List.filter_cons]

theorem c2_p33 : quantileQ (mapDataTotals c2Rows) (33/100) = 182/5 := by
  rw [c2_totals]
  norm_num [quantileQ, interpAt, List.insertionSort, List.orderedInsert]

theorem c2_p66 : quantileQ (mapDataTotals c2Rows) (66/100) = 66 := by
  rw [c2_totals]
  norm_num [quantileQ, interpAt, List.insertionSort, List.orderedInsert]

/-- Claim C2 counterexample: on the dataset with region totals A=100,
B=50, C=10, the thresholds the zone classifier actually computes are
p33 = 36.4 and p66 = 66 — nowhere near the claimed p33 ≈ 10 and
p66 ≈ 50 (both are off by more than 10). -/
theorem claim_C2_counterexample :
    mapDataTotals c2Rows = [100, 50, 10] ∧
    quantileQ (mapDataTotals c2Rows) (33/100) = 182/5 ∧
    quantileQ (mapDataTotals c2Rows) (66/100) = 66 ∧
    ¬ (quantileQ (mapDataTotals c2Rows) (33/100) ≤ 20 ∧
       quantileQ (mapDataTotals c2Rows) (66/100) ≤ 60) := by
  refine ⟨c2_totals, c2_p33, c2_p66, ?_⟩
  rw [c2_p33, c2_p66]
  norm_num

/-- Claim C2 amended: on the dataset with region totals A=100, B=50,
C=10, the linear-interpolated quantile thresholds are p33 = 36.4 and
p66 = 66, and the classification is A → High, B → Medium, C → Low. -/
theorem claim_C2_amended_thresholds_and_zones :
    quantileQ (mapDataTotals c2Rows) (33/100) = 182/5 ∧
    quantileQ (mapDataTotals c2Rows) (66/100) = 66 ∧
    zoneOf (mapDataTotals c2Rows) (regionTotal c2Rows "A") = Zone.high ∧
    zoneOf (mapDataTotals c2Rows) (regionTotal c2Rows "B") = Zone.medium ∧
    zoneOf (mapDataTotals c2Rows) (regionTotal c2Rows "C") = Zone.low := by
  have hA : regionTotal c2Rows "A" = 100 := by
    simp [regionTotal, regionYoung, regionAdult, c2Rows, List.filter_cons]
  have hB : regionTotal c2Rows "B" = 50 := by
    simp [regionTotal, regionYoung, regionAdult, c2Rows, List.filter_cons]
  have hC : regionTotal c2Rows "C" = 10 := by
    simp [regionTotal, regionYoung, regionAdult, c2Rows, List.filter_cons]
  refine ⟨c2_p33, c2_p66, ?_, ?_, ?_⟩
  · rw [hA, zoneOf, get_zone_color_val, c2_p33, c2_p66]
    norm_num
  · rw [hB, zoneOf, get_zone_color_val, c2_p33, c2_p66]
    norm_num
  · rw [hC, zoneOf, get_zone_color_val, c2_p33, c2_p66]
    norm_num

end Uidai
